import Mathlib

/-!
# Cross-System Organization Synchronization Engine — verification

Shallow embedding of the synchronization engine of the `jithub` web console:
the slug allocator (`lib/utils/slug.ts`), the Postgres-side data model
(`lib/db/schema.ts`), the Keycloak sync service (`lib/keycloak/sync.ts`),
the organization create / invite / cancel-invitation / domain-verify API
routes, and the DNS ownership check (`lib/dns/verification.ts`).

Modelling conventions:
* time is `Nat` milliseconds; `new Date()` becomes an explicit `now` argument;
* `generateId()` (better-auth) is modelled as a fresh-id supply `genId n`
  driven by a counter stored in the local store, one increment per call;
* database statements become pure functions on a `Store` record; inserts that
  can hit a declared unique constraint (`organization.slug`,
  `organization.keycloak_org_id`) return `Except DbError`, mirroring the fact
  that such an insert rejects and the surrounding `try/catch` sees an error;
* the Keycloak admin client becomes a record of pure functions (`KcEnv`) plus
  an explicit Keycloak-side state (`KcState`) for routes that write to it;
* JavaScript truthiness on strings (`!s`) is modelled as comparison with `""`,
  and on optional values as `Option`.
-/

namespace Jithub

/-! ## Slug Allocator — `src/apps/web-console/src/lib/utils/slug.ts` -/

/-- ASCII `[a-z0-9]`, the characters a slug segment may contain. -/
def isLowerAlnum (c : Char) : Bool :=
  (97 ≤ c.toNat && c.toNat ≤ 122) || (48 ≤ c.toNat && c.toNat ≤ 57)

/-- ASCII whitespace as matched by JavaScript `trim` / `\s`
(TAB, LF, VT, FF, CR, space; the Unicode space classes are not modelled —
no modelled input contains them). -/
def isJsSpace (c : Char) : Bool :=
  (9 ≤ c.toNat && c.toNat ≤ 13) || c.toNat = 32

/-- ASCII effect of `String.prototype.toLowerCase`. Non-ASCII case folding is
not modelled: any non-ASCII character, cased or not, is replaced by a hyphen
by the next pipeline stage, so only `A`–`Z` matters for `generateSlug`. -/
def jsToLower (c : Char) : Char :=
  if 65 ≤ c.toNat && c.toNat ≤ 90 then Char.ofNat (c.toNat + 32) else c

/-- `String.prototype.trim`. -/
def jsTrim (cs : List Char) : List Char :=
  ((cs.dropWhile isJsSpace).reverse.dropWhile isJsSpace).reverse

/-- First half of the source's replace of regex `[^a-z0-9]+` with `"-"`:
replace every character outside `[a-z0-9]` by a hyphen.  Replacing characters
pointwise and then collapsing hyphen runs (`collapseHyphens`) yields exactly
the run-replacement the regex performs, and also absorbs the source's
follow-up replace of regex `-+` with `"-"` (a no-op after run replacement). -/
def toHyphens (cs : List Char) : List Char :=
  cs.map fun c => if isLowerAlnum c then c else '-'

/-- Collapse every run of hyphens to a single hyphen (the source's replace of
regex `-+` with `"-"`). -/
def collapseHyphens : List Char → List Char
  | [] => []
  | [c] => [c]
  | a :: b :: rest =>
    if a = '-' && b = '-' then collapseHyphens (b :: rest)
    else a :: collapseHyphens (b :: rest)

/-- Leading half of the source's replace of regex `^-|-$` with `""`:
`^-` matches at most once. -/
def dropLeadHyphen (cs : List Char) : List Char :=
  if cs.head? = some '-' then cs.tail else cs

/-- Trailing half of the source's replace of regex `^-|-$` with `""`:
`-$` matches at most once. -/
def dropTrailHyphen (cs : List Char) : List Char :=
  if cs.getLast? = some '-' then cs.dropLast else cs

/-- `SLUG_CONFIG.MAX_LENGTH`. -/
def SLUG_MAX_LENGTH : Nat := 50

/-- `SLUG_CONFIG.MIN_LENGTH`. -/
def SLUG_MIN_LENGTH : Nat := 3

/-- `generateSlug`: lower-case, trim, replace non-`[a-z0-9]` runs with a
hyphen, collapse hyphen runs, strip one leading/trailing hyphen, truncate
to 50 characters (`.substring(0, 50)`). -/
def generateSlug (name : String) : String :=
  String.mk ((dropTrailHyphen (dropLeadHyphen (collapseHyphens (toHyphens
    (jsTrim (name.data.map jsToLower)))))).take SLUG_MAX_LENGTH)

/-- `RESERVED_SLUGS`. -/
def RESERVED_SLUGS : List String :=
  ["admin", "api", "auth", "dashboard", "settings", "billing", "support",
   "onboarding", "account", "profile", "organization", "organizations",
   "team", "teams", "user", "users", "login", "logout", "signup", "signin",
   "register", "callback", "oauth", "saml", "oidc", "sso", "health",
   "status", "metrics", "docs", "documentation", "help", "about", "contact",
   "privacy", "terms", "tos"]

/-- Helper for `SLUG_CONFIG.PATTERN`: no two adjacent hyphens. -/
def noDoubleHyphen : List Char → Bool
  | [] => true
  | [_] => true
  | a :: b :: rest => !(a = '-' && b = '-') && noDoubleHyphen (b :: rest)

/-- `SLUG_CONFIG.PATTERN`, the regex `^[a-z0-9]+(?:-[a-z0-9]+)*$`: nonempty,
only `[a-z0-9-]`, no leading or trailing hyphen, no doubled hyphen. -/
def slugPatternOk (s : String) : Bool :=
  !s.data.isEmpty &&
  s.data.all (fun c => isLowerAlnum c || c = '-') &&
  s.data.head? != some '-' &&
  s.data.getLast? != some '-' &&
  noDoubleHyphen s.data

/-- Result record of `validateSlug`. -/
structure SlugValidationResult where
  valid : Bool
  error : Option String
deriving Repr, DecidableEq

/-- `validateSlug`: minimum length, maximum length, pattern, reserved list —
checked in that order, first failure wins. -/
def validateSlug (slug : String) : SlugValidationResult :=
  if slug.length < SLUG_MIN_LENGTH then
    ⟨false, some "Slug must be at least 3 characters"⟩
  else if slug.length > SLUG_MAX_LENGTH then
    ⟨false, some "Slug must be at most 50 characters"⟩
  else if !slugPatternOk slug then
    ⟨false, some "Slug must contain only lowercase letters, numbers, and hyphens (no leading/trailing hyphens)"⟩
  else if RESERVED_SLUGS.contains slug then
    ⟨false, some ("Slug " ++ slug ++ " is reserved and cannot be used")⟩
  else ⟨true, none⟩

/-- `generateSlugSuggestions`: append `-2`, `-3`, …, skipping candidates that
would exceed the maximum length. -/
def generateSlugSuggestions (baseSlug : String) (count : Nat) : List String :=
  (List.range' 2 count).filterMap fun i =>
    let suggestion := baseSlug ++ "-" ++ toString i
    if suggestion.length ≤ SLUG_MAX_LENGTH then some suggestion else none

/-- `isReservedSlug`: membership of the lower-cased slug in `RESERVED_SLUGS`. -/
def isReservedSlug (slug : String) : Bool :=
  RESERVED_SLUGS.contains (String.mk (slug.data.map jsToLower))

/-! ## Local Store data model — `src/apps/web-console/src/lib/db/schema.ts` -/

/-- Milliseconds since the epoch. -/
abbrev Time := Nat

/-- The JSON object the domain routes keep in `organization.metadata`
(`domainVerificationToken`, `domainAddedAt`, `domainVerifiedAt`).  The
source stores it `JSON.stringify`-ed and parses it back; the embedding keeps
the parsed object, treating the JSON round trip as the identity. -/
structure OrgMetadata where
  domainVerificationToken : Option String
  domainAddedAt : Option Time
  domainVerifiedAt : Option Time
deriving Repr, DecidableEq

/-- Row of the `organization` table (columns the engine reads or writes). -/
structure Organization where
  id : String
  name : String
  slug : String
  metadata : Option OrgMetadata
  keycloakOrgId : Option String
  customDomain : Option String
  domainVerified : Bool
  createdBy : Option String
  subscriptionPlan : Option String
  updatedAt : Time
deriving Repr, DecidableEq

/-- Row of the `member` table. -/
structure Member where
  id : String
  organizationId : String
  userId : String
  role : String
deriving Repr, DecidableEq

/-- Row of the `invitation` table. -/
structure Invitation where
  id : String
  organizationId : String
  email : String
  role : Option String
  status : String
  expiresAt : Time
  inviterId : String
  keycloakInvitationId : Option String
  acceptedAt : Option Time
  updatedAt : Time
deriving Repr, DecidableEq

/-- Row of the `keycloak_sync_state` table. -/
structure SyncState where
  id : String
  entityType : String
  entityId : String
  keycloakId : String
  syncStatus : String
  syncError : Option String
  lastSyncedAt : Time
deriving Repr, DecidableEq

/-- The Local Store: the four engine tables plus the fresh-id counter that
models better-auth `generateId()` (each call consumes one counter value). -/
structure Store where
  orgs : List Organization
  members : List Member
  invitations : List Invitation
  syncStates : List SyncState
  nextId : Nat
deriving Repr, DecidableEq

/-- Fresh id supply modelling `generateId()`. -/
def genId (n : Nat) : String := "gen-" ++ toString n

/-- `select().from(organization).where(eq(organization.id, orgId)).limit(1)`. -/
def findOrgById (s : Store) (orgId : String) : Option Organization :=
  s.orgs.find? fun o => o.id == orgId

/-- `select().from(organization).where(eq(organization.slug, slug)).limit(1)`. -/
def findOrgBySlug (s : Store) (slug : String) : Option Organization :=
  s.orgs.find? fun o => o.slug == slug

/-- `select().from(organization).where(eq(organization.keycloakOrgId, k)).limit(1)`. -/
def findOrgByKcId (s : Store) (k : String) : Option Organization :=
  s.orgs.find? fun o => o.keycloakOrgId == some k

/-- `select().from(member).where(and(eq(organizationId), eq(userId))).limit(1)`. -/
def findMember (s : Store) (orgId userId : String) : Option Member :=
  s.members.find? fun m => m.organizationId == orgId && m.userId == userId

/-- `select().from(invitation).where(and(eq(organizationId), eq(email),
eq(status, "pending"))).limit(1)`. -/
def findPendingInvitation (s : Store) (orgId email : String) : Option Invitation :=
  s.invitations.find? fun i =>
    i.organizationId == orgId && i.email == email && i.status == "pending"

/-- `select().from(invitation).where(eq(invitation.id, invitationId)).limit(1)`. -/
def findInvitationById (s : Store) (invitationId : String) : Option Invitation :=
  s.invitations.find? fun i => i.id == invitationId

/-- Error surfaced by an insert that violates a declared unique constraint. -/
inductive DbError where
  | uniqueViolation (constraintName : String)
deriving Repr, DecidableEq

instance {ε α : Type} [DecidableEq ε] [DecidableEq α] : DecidableEq (Except ε α) :=
  fun x y =>
    match x, y with
    | .ok a, .ok b =>
      if h : a = b then .isTrue (by rw [h])
      else .isFalse (by intro hh; cases hh; exact h rfl)
    | .error a, .error b =>
      if h : a = b then .isTrue (by rw [h])
      else .isFalse (by intro hh; cases hh; exact h rfl)
    | .ok _, .error _ => .isFalse (by intro hh; cases hh)
    | .error _, .ok _ => .isFalse (by intro hh; cases hh)

/-- `insert(organization).values(...)`: the schema declares `slug` and
`keycloak_org_id` unique, so the statement rejects when either collides;
otherwise the row is appended. -/
def insertOrganization (s : Store) (o : Organization) : Except DbError Store :=
  if s.orgs.any (fun x => x.slug == o.slug) then
    .error (.uniqueViolation "organization_slug_unique")
  else if o.keycloakOrgId.isSome && s.orgs.any (fun x => x.keycloakOrgId == o.keycloakOrgId) then
    .error (.uniqueViolation "organization_keycloak_org_id_unique")
  else
    .ok { s with orgs := s.orgs ++ [o] }

/-! ## Identity Directory client — `src/apps/web-console/src/lib/keycloak/client.ts`

The admin client is read from by the sync service through `getUserByEmail`
and `getOrganizationsForUser`; those become pure functions of a `KcEnv`.
Routes that also write to Keycloak (`create`, domain routes) additionally
manipulate an explicit `KcState`. -/

/-- Keycloak organization representation as the sync service consumes it
(`id?`, `name`, `alias?`; the `alias` field is spelled `orgAlias`, `alias` being a Lean keyword). -/
structure KcOrg where
  id : Option String
  name : String
  orgAlias : Option String
deriving Repr, DecidableEq

/-- Result of `getUserByEmail`. -/
structure KcUser where
  id : String
deriving Repr, DecidableEq

/-- The read interface of the Keycloak admin client used by the sync pass. -/
structure KcEnv where
  userByEmail : String → Option KcUser
  orgsForUser : String → List KcOrg

/-- Keycloak-side organization record for routes that write to Keycloak.
`verifiedDomain` stands for the `domains: [(name, verified: true)]` payload
the domain-verify route mirrors. -/
structure KcOrgRecord where
  id : String
  name : String
  orgAlias : Option String
  verifiedDomain : Option String
deriving Repr, DecidableEq

/-- Keycloak-side state for routes that write to Keycloak. -/
structure KcState where
  orgs : List KcOrgRecord
  members : List (String × String)
  nextId : Nat
deriving Repr, DecidableEq

/-- `searchOrganizationsByAlias`: realm-wide search filtered to exact alias
matches. -/
def searchOrganizationsByAlias (kc : KcState) (a : String) : List KcOrgRecord :=
  kc.orgs.filter fun o => o.orgAlias == some a

/-! ## Membership sync pass — `src/apps/web-console/src/lib/keycloak/sync.ts` -/

/-- The `SyncResult` record returned by `syncUserOrganizations`. -/
structure SyncResult where
  newOrganizations : Nat
  newMemberships : Nat
  acceptedInvitations : Nat
deriving Repr, DecidableEq

/-- The all-zero result the sync pass starts from. -/
def SyncResult.zero : SyncResult := ⟨0, 0, 0⟩

/-- Second half of the per-organization loop body: ensure a membership row
exists; on creating one, write a ledger record and accept a matching pending
invitation (same organization, same email) if present. -/
def syncEnsureMembership (now : Time) (kcUserId userId userEmail orgId : String)
    (s : Store) (r : SyncResult) : Store × SyncResult :=
  match findMember s orgId userId with
  | some _ => (s, r)
  | none =>
    let memberId := genId s.nextId
    let s1 : Store := { s with
      members := s.members ++ [{ id := memberId, organizationId := orgId,
                                 userId := userId, role := "member" }],
      nextId := s.nextId + 1 }
    let ledgerRow : SyncState :=
      { id := genId s1.nextId, entityType := "member", entityId := memberId,
        keycloakId := kcUserId, syncStatus := "synced", syncError := none,
        lastSyncedAt := now }
    let s2 : Store := { s1 with
      syncStates := s1.syncStates ++ [ledgerRow],
      nextId := s1.nextId + 1 }
    let r1 : SyncResult := { r with newMemberships := r.newMemberships + 1 }
    match findPendingInvitation s2 orgId userEmail with
    | some inv =>
      let s3 : Store := { s2 with invitations := s2.invitations.map fun i =>
        if i.id == inv.id then
          { i with status := "accepted", acceptedAt := some now, updatedAt := now }
        else i }
      (s3, { r1 with acceptedInvitations := r1.acceptedInvitations + 1 })
    | none => (s2, r1)

/-- The slug of a mirrored organization: `kcOrg.alias || generateId()`
(JavaScript truthiness: an absent or empty alias falls back to a generated
id, consuming one counter value). -/
def syncOrgSlug (kcOrg : KcOrg) (s1 : Store) : String × Store :=
  match kcOrg.orgAlias with
  | some a =>
    if a == "" then (genId s1.nextId, { s1 with nextId := s1.nextId + 1 })
    else (a, s1)
  | none => (genId s1.nextId, { s1 with nextId := s1.nextId + 1 })

/-- The organization row the sync pass mirrors into the Local Store for a
Keycloak organization that has no local row yet: name from
`kcOrg.name || "Unknown"`, slug from `kcOrg.alias || generateId()` (see
`syncOrgSlug`), `keycloakOrgId` from the entry id. -/
def syncNewOrg (now : Time) (kcOrg : KcOrg) (s : Store) : Organization :=
  { id := genId s.nextId,
    name := if kcOrg.name == "" then "Unknown" else kcOrg.name,
    slug := (syncOrgSlug kcOrg { s with nextId := s.nextId + 1 }).1,
    metadata := none, keycloakOrgId := some (kcOrg.id.getD ""),
    customDomain := none, domainVerified := false, createdBy := none,
    subscriptionPlan := none, updatedAt := now }

/-- Body of the `for (const kcOrg of kcOrganizations)` loop: skip entries
without an id (`if (!kcOrg.id) continue`), mirror a missing organization row
(slug from `kcOrg.alias || generateId()`), then ensure the membership.  A
rejected insert surfaces as an error, exactly as the awaited statement
would throw inside the loop. -/
def syncProcessOrg (now : Time) (kcUserId userId userEmail : String) :
    Store × SyncResult → KcOrg → Except DbError (Store × SyncResult)
  | (s, r), kcOrg =>
  if kcOrg.id.getD "" == "" then .ok (s, r)
  else
    let kid := kcOrg.id.getD ""
    match findOrgByKcId s kid with
    | some org => .ok (syncEnsureMembership now kcUserId userId userEmail org.id s r)
    | none =>
      let orgId := genId s.nextId
      let s1 : Store := { s with nextId := s.nextId + 1 }
      let slugAndStore := syncOrgSlug kcOrg s1
      match insertOrganization slugAndStore.2 (syncNewOrg now kcOrg s) with
      | .error e => .error e
      | .ok s3 =>
        let ledgerRow : SyncState :=
          { id := genId s3.nextId, entityType := "organization",
            entityId := orgId, keycloakId := kid, syncStatus := "synced",
            syncError := none, lastSyncedAt := now }
        let s4 : Store := { s3 with
          syncStates := s3.syncStates ++ [ledgerRow],
          nextId := s3.nextId + 1 }
        .ok (syncEnsureMembership now kcUserId userId userEmail orgId s4
          { r with newOrganizations := r.newOrganizations + 1 })

/-- `syncUserOrganizations(userId, userEmail)`: resolve the Keycloak user by
email (returning the zero result when absent), list the organizations
Keycloak associates with the user, and run the per-organization loop.  The
source wraps the loop in `try { ... } catch (error) { ...; throw error }`, so
any error inside the loop aborts the remaining organizations and is rethrown;
`Except` bind models exactly that. -/
def syncUserOrganizations (env : KcEnv) (now : Time) (userId userEmail : String)
    (s : Store) : Except DbError (Store × SyncResult) :=
  match env.userByEmail userEmail with
  | none => .ok (s, SyncResult.zero)
  | some kcUser =>
    (env.orgsForUser userEmail).foldlM
      (syncProcessOrg now kcUser.id userId userEmail) (s, SyncResult.zero)

/-! ## InviteMember — `src/app/api/organization/invite/route.ts` (POST) -/

/-- The authenticated principal supplied by the session layer. -/
structure SessionUser where
  id : String
  email : String
deriving Repr, DecidableEq

/-- The parsed JSON request body of the invite route; absent properties are
`none` (so the `role = "member"` destructuring default applies to `none`). -/
structure InviteBody where
  organizationId : Option String
  email : Option String
  role : Option String
  firstName : Option String
  lastName : Option String
deriving Repr, DecidableEq

/-- Split a character list at every occurrence of `sep` (the pieces do not
contain `sep`); yields exactly two pieces iff `sep` occurs exactly once. -/
def splitOnChar (sep : Char) : List Char → List (List Char)
  | [] => [[]]
  | c :: rest =>
    let r := splitOnChar sep rest
    if c = sep then [] :: r
    else
      match r with
      | [] => [[c]]
      | h :: t => (c :: h) :: t

/-- The email regex of the invite route: one `@` (its character classes
exclude `@`, so a match has exactly one), a nonempty local part and a
nonempty domain part without whitespace or `@`, and — because the greedy
middle class must leave a `.` followed by a final nonempty class — a dot
strictly inside the domain part. -/
def emailValid (email : String) : Bool :=
  match splitOnChar '@' email.data with
  | [localPart, domainPart] =>
    !localPart.isEmpty && !domainPart.isEmpty &&
    localPart.all (fun c => !isJsSpace c) &&
    domainPart.all (fun c => !isJsSpace c) &&
    ((domainPart.drop 1).dropLast.contains '.')
  | _ => false

/-- `validRoles` of the invite route. -/
def validRoles : List String := ["owner", "admin", "member"]

/-- Typed outcome of the invite route, one constructor per response. -/
inductive InviteResult where
  | unauthorized
  | missingFields
  | invalidEmail
  | invalidRole
  | orgNotFound
  | notMember
  | insufficientRole
  | alreadyMember
  | alreadyInvited
  | orgNotLinked
  | externalFailure
  | success (invitationId email role : String) (expiresAt : Time)
deriving Repr, DecidableEq

/-- `POST /api/organization/invite`.  `kcInviteOk` says whether the awaited
`inviteUserToOrganization` call succeeds (its failure is caught by the outer
handler and surfaced as a 500).  Note that step 5 of the source re-queries
the `member` table with `session.user.id` — the principal, not the invitee —
which is the same query step 4 just ran. -/
def invitePost (session : Option SessionUser) (body : InviteBody)
    (kcInviteOk : Bool) (now : Time) (s : Store) : InviteResult × Store :=
  match session with
  | none => (.unauthorized, s)
  | some user =>
    let role := body.role.getD "member"
    if body.organizationId.getD "" == "" || body.email.getD "" == "" then
      (.missingFields, s)
    else
      let organizationId := body.organizationId.getD ""
      let email := body.email.getD ""
      if !emailValid email then (.invalidEmail, s)
      else if !validRoles.contains role then (.invalidRole, s)
      else
        match findOrgById s organizationId with
        | none => (.orgNotFound, s)
        | some orgData =>
          match findMember s organizationId user.id with
          | none => (.notMember, s)
          | some membership =>
            if membership.role != "owner" && membership.role != "admin" then
              (.insufficientRole, s)
            else
              match findMember s organizationId user.id with
              | some _ => (.alreadyMember, s)
              | none =>
                match findPendingInvitation s organizationId email with
                | some _ => (.alreadyInvited, s)
                | none =>
                  if orgData.keycloakOrgId.isNone then (.orgNotLinked, s)
                  else if !kcInviteOk then (.externalFailure, s)
                  else
                    let invitationId := genId s.nextId
                    let expiresAt := now + 7 * 86400000
                    let inv : Invitation :=
                      { id := invitationId, organizationId := organizationId,
                        email := email, role := some role, status := "pending",
                        expiresAt := expiresAt, inviterId := user.id,
                        keycloakInvitationId := none, acceptedAt := none,
                        updatedAt := now }
                    (.success invitationId email role expiresAt,
                     { s with invitations := s.invitations ++ [inv],
                              nextId := s.nextId + 1 })

/-! ## ProvisionOrganization — `src/app/api/organization/create/route.ts` (POST) -/

/-- Typed outcome of the create route, one constructor per response. -/
inductive CreateResult where
  | unauthorized
  | missingFields
  | invalidSlug (error : Option String)
  | slugTakenLocal
  | slugTakenKeycloak
  | kcUserNotFound
  | internalError
  | success (orgId kcOrgId : String)
deriving Repr, DecidableEq

/-- `POST /api/organization/create`: session, required fields, slug format
(step 1), local uniqueness (step 2), Keycloak alias uniqueness (step 3), then
the irreversible Keycloak create (step 4), owner membership in Keycloak
(step 5), and the local mirror writes (steps 6–7). -/
def createPost (session : Option SessionUser) (name slug : Option String)
    (env : KcEnv) (kc : KcState) (now : Time) (s : Store) :
    CreateResult × Store × KcState :=
  match session with
  | none => (.unauthorized, s, kc)
  | some user =>
    if name.getD "" == "" || slug.getD "" == "" then (.missingFields, s, kc)
    else
      let nm := name.getD ""
      let sl := slug.getD ""
      let validation := validateSlug sl
      if !validation.valid then (.invalidSlug validation.error, s, kc)
      else if (findOrgBySlug s sl).isSome then (.slugTakenLocal, s, kc)
      else if !(searchOrganizationsByAlias kc sl).isEmpty then
        (.slugTakenKeycloak, s, kc)
      else
        let kcOrgId := "kc-" ++ toString kc.nextId
        let kc1 : KcState :=
          { kc with
            orgs := kc.orgs ++ [{ id := kcOrgId, name := nm, orgAlias := some sl,
                                  verifiedDomain := none }],
            nextId := kc.nextId + 1 }
        match env.userByEmail user.email with
        | none => (.kcUserNotFound, s, kc1)
        | some kcUser =>
          let kc2 : KcState := { kc1 with members := kc1.members ++ [(kcOrgId, kcUser.id)] }
          let orgId := genId s.nextId
          let s1 : Store := { s with nextId := s.nextId + 1 }
          let newOrg : Organization :=
            { id := orgId, name := nm, slug := sl, metadata := none,
              keycloakOrgId := some kcOrgId, customDomain := none,
              domainVerified := false, createdBy := some user.id,
              subscriptionPlan := some "free", updatedAt := now }
          match insertOrganization s1 newOrg with
          | .error _ => (.internalError, s1, kc2)
          | .ok s2 =>
            let orgLedger : SyncState :=
              { id := genId s2.nextId, entityType := "organization",
                entityId := orgId, keycloakId := kcOrgId,
                syncStatus := "synced", syncError := none, lastSyncedAt := now }
            let s3 : Store := { s2 with
              syncStates := s2.syncStates ++ [orgLedger],
              nextId := s2.nextId + 1 }
            let memberId := genId s3.nextId
            let s4 : Store :=
              { s3 with
                members := s3.members ++ [{ id := memberId, organizationId := orgId,
                                            userId := user.id, role := "owner" }],
                nextId := s3.nextId + 1 }
            let memberLedger : SyncState :=
              { id := genId s4.nextId, entityType := "member",
                entityId := memberId, keycloakId := kcUser.id,
                syncStatus := "synced", syncError := none, lastSyncedAt := now }
            let s5 : Store := { s4 with
              syncStates := s4.syncStates ++ [memberLedger],
              nextId := s4.nextId + 1 }
            (.success orgId kcOrgId, s5, kc2)

/-! ## CancelInvitation — `src/app/api/organization/invitation/[invitationId]/cancel/route.ts` (POST) -/

/-- Typed outcome of the cancel route, one constructor per response. -/
inductive CancelResult where
  | unauthorized
  | invitationNotFound
  | notMember
  | insufficientRole
  | notPending (status : String)
  | success
deriving Repr, DecidableEq

/-- `POST /api/organization/invitation/[invitationId]/cancel`: session,
invitation lookup, owner/admin membership on the invitation's organization,
`pending` status check, then the status update to `cancelled`. -/
def cancelPost (session : Option SessionUser) (invitationId : String)
    (now : Time) (s : Store) : CancelResult × Store :=
  match session with
  | none => (.unauthorized, s)
  | some user =>
    match findInvitationById s invitationId with
    | none => (.invitationNotFound, s)
    | some invData =>
      match findMember s invData.organizationId user.id with
      | none => (.notMember, s)
      | some membership =>
        if membership.role != "owner" && membership.role != "admin" then
          (.insufficientRole, s)
        else if invData.status != "pending" then (.notPending invData.status, s)
        else
          (.success,
           { s with invitations := s.invitations.map fun i =>
               if i.id == invitationId then
                 { i with status := "cancelled", updatedAt := now }
               else i })

/-! ## Domain Verifier — domain verify route and `src/lib/dns/verification.ts` -/

/-- Outcome of one `dns.resolveTxt` call: the TXT record sets (each record a
list of strings that the source joins), or one of the error classes the
source distinguishes (`ENOTFOUND`, `ENODATA`, anything else). -/
inductive DnsOutcome where
  | records (rs : List (List String))
  | errNotFound
  | errNoData
  | errOther (msg : String)

/-- The DNS resolver as a function from query name to outcome. -/
abbrev DnsResolver := String → DnsOutcome

/-- Result record of `verifyDomainOwnership`. -/
structure OwnershipCheck where
  verified : Bool
  error : Option String
deriving Repr, DecidableEq

/-- `verifyDomainOwnership(domain, expectedToken)`: resolve TXT records at
the `_jithub-verify.` subdomain and look for an exact token match. -/
def verifyDomainOwnership (resolve : DnsResolver) (domain expectedToken : String) :
    OwnershipCheck :=
  match resolve ("_jithub-verify." ++ domain) with
  | .records rs =>
    if rs.any (fun record => String.join record == expectedToken) then
      { verified := true, error := none }
    else
      { verified := false,
        error := some "Verification token not found in DNS TXT records" }
  | .errNotFound =>
    { verified := false,
      error := some "DNS record not found. Please ensure you have created the TXT record." }
  | .errNoData =>
    { verified := false, error := some "No TXT records found for this domain." }
  | .errOther msg => { verified := false, error := some msg }

/-- Typed outcome of the domain-verify route, one constructor per response. -/
inductive VerifyResult where
  | unauthorized
  | orgNotFound
  | notOwner
  | noDomain
  | alreadyVerified (domain : String)
  | tokenMissing
  | verifyFailed (error : Option String)
  | nowVerified (domain : String)
deriving Repr, DecidableEq

/-- `POST /api/organization/[organizationId]/domain/verify`.  The last
component of the result is the list of DNS names queried during the call
(the trace of `dns.resolveTxt` invocations).  `kcUpdateOk` says whether the
best-effort Keycloak mirror succeeds; its failure is caught and ignored. -/
def verifyPost (session : Option SessionUser) (organizationId : String)
    (resolve : DnsResolver) (kcUpdateOk : Bool) (kc : KcState) (now : Time)
    (s : Store) : VerifyResult × Store × KcState × List String :=
  match session with
  | none => (.unauthorized, s, kc, [])
  | some user =>
    match findOrgById s organizationId with
    | none => (.orgNotFound, s, kc, [])
    | some orgData =>
      match findMember s organizationId user.id with
      | none => (.notOwner, s, kc, [])
      | some membership =>
        if membership.role != "owner" then (.notOwner, s, kc, [])
        else
          match orgData.customDomain with
          | none => (.noDomain, s, kc, [])
          | some domain =>
            if orgData.domainVerified then (.alreadyVerified domain, s, kc, [])
            else
              let token := (orgData.metadata.bind
                (fun m => m.domainVerificationToken)).getD ""
              if token == "" then (.tokenMissing, s, kc, [])
              else
                let queried := ["_jithub-verify." ++ domain]
                let check := verifyDomainOwnership resolve domain token
                if !check.verified then
                  (.verifyFailed check.error, s, kc, queried)
                else
                  let meta := orgData.metadata.getD
                    { domainVerificationToken := none, domainAddedAt := none,
                      domainVerifiedAt := none }
                  let s1 : Store := { s with orgs := s.orgs.map fun o =>
                    if o.id == organizationId then
                      { o with domainVerified := true,
                               metadata := some { meta with domainVerifiedAt := some now },
                               updatedAt := now }
                    else o }
                  let kc1 : KcState :=
                    match orgData.keycloakOrgId with
                    | none => kc
                    | some kid =>
                      if kcUpdateOk ∧ (kc.orgs.any fun o => o.id == kid) then
                        { kc with orgs := kc.orgs.map fun o =>
                            if o.id == kid then { o with verifiedDomain := some domain }
                            else o }
                      else kc
                  (.nowVerified domain, s1, kc1, queried)

/-! ## Reconciliation invariant -/

/-- A Keycloak organization entry is fully mirrored for a user: either it has
no usable id (the loop skips it), or the Local Store holds an organization
row for its Keycloak id and a membership row for the user in that
organization. -/
def orgSynced (s : Store) (userId : String) (k : KcOrg) : Prop :=
  k.id.getD "" = "" ∨
  ∃ org, findOrgByKcId s (k.id.getD "") = some org ∧
    (findMember s org.id userId).isSome = true

/-! ## Concrete fixtures used by witnesses and counterexamples -/

/-- A Local Store with no rows. -/
def emptyStore : Store :=
  { orgs := [], members := [], invitations := [], syncStates := [], nextId := 0 }

/-- Keycloak entry for the `acme` organization. -/
def kcOrgAcme : KcOrg := { id := some "kc-1", name := "Acme", orgAlias := some "acme" }

/-- Keycloak entry for the `beta` organization. -/
def kcOrgBeta : KcOrg := { id := some "kc-2", name := "Beta", orgAlias := some "beta" }

/-- Identity Directory with one user (`alice@acme.com`), whom it associates
with the `acme` organization. -/
def envAcme : KcEnv :=
  { userByEmail := fun e => if e == "alice@acme.com" then some ⟨"kc-alice"⟩ else none,
    orgsForUser := fun _ => [kcOrgAcme] }

/-- Identity Directory that associates `alice@acme.com` with two
organizations, `acme` first. -/
def envTwoOrgs : KcEnv :=
  { userByEmail := fun e => if e == "alice@acme.com" then some ⟨"kc-alice"⟩ else none,
    orgsForUser := fun _ => [kcOrgAcme, kcOrgBeta] }

/-- A Local Store already holding an unrelated organization whose slug is
`acme`: mirroring the Keycloak `acme` organization then violates the unique
slug constraint. -/
def storeSlugConflict : Store :=
  { orgs := [{ id := "o-old", name := "Old Acme", slug := "acme", metadata := none,
               keycloakOrgId := some "kc-other", customDomain := none,
               domainVerified := false, createdBy := none,
               subscriptionPlan := none, updatedAt := 0 }],
    members := [], invitations := [], syncStates := [], nextId := 0 }

/-- Mirrored `acme` organization row (Keycloak id `kc-1`). -/
def orgAcmeRow : Organization :=
  { id := "oA", name := "Acme", slug := "acme", metadata := none,
    keycloakOrgId := some "kc-1", customDomain := none, domainVerified := false,
    createdBy := none, subscriptionPlan := none, updatedAt := 0 }

/-- Store holding the mirrored `acme` row and a pending invitation for
`alice@acme.com`, but no membership yet. -/
def storeInvitedAlice : Store :=
  { orgs := [orgAcmeRow],
    members := [],
    invitations := [{ id := "inv1", organizationId := "oA", email := "alice@acme.com",
                      role := some "member", status := "pending", expiresAt := 999,
                      inviterId := "u0", keycloakInvitationId := none,
                      acceptedAt := none, updatedAt := 0 }],
    syncStates := [], nextId := 0 }

/-- Organization row used by the invite/cancel/create fixtures. -/
def orgTestRow : Organization :=
  { id := "org1", name := "Test Org", slug := "test-org", metadata := none,
    keycloakOrgId := some "kc-org-123", customDomain := none,
    domainVerified := false, createdBy := some "u1",
    subscriptionPlan := some "free", updatedAt := 0 }

/-- Store where user `u1` owns `org1` and nobody else is a member. -/
def storeOwner : Store :=
  { orgs := [orgTestRow],
    members := [{ id := "m1", organizationId := "org1", userId := "u1", role := "owner" }],
    invitations := [], syncStates := [], nextId := 0 }

/-- Pending invitation row used by the cancel fixture. -/
def invPendingRow : Invitation :=
  { id := "inv8", organizationId := "org1", email := "carol@example.org",
    role := some "member", status := "pending", expiresAt := 999,
    inviterId := "u1", keycloakInvitationId := none, acceptedAt := none,
    updatedAt := 0 }

/-- Store where `u1` owns `org1` and a pending invitation `inv8` exists. -/
def storeCancel : Store :=
  { orgs := [orgTestRow],
    members := [{ id := "m1", organizationId := "org1", userId := "u1", role := "owner" }],
    invitations := [invPendingRow], syncStates := [], nextId := 0 }

/-- Organization with a custom domain that is already verified. -/
def orgVerifiedRow : Organization :=
  { id := "oV", name := "V", slug := "v-co",
    metadata := some { domainVerificationToken := some "tok123",
                       domainAddedAt := some 1, domainVerifiedAt := none },
    keycloakOrgId := some "kc-v", customDomain := some "v.example",
    domainVerified := true, createdBy := some "u1",
    subscriptionPlan := some "free", updatedAt := 0 }

/-- Store where `u1` owns `oV`, whose domain is already verified. -/
def storeVerified : Store :=
  { orgs := [orgVerifiedRow],
    members := [{ id := "mV", organizationId := "oV", userId := "u1", role := "owner" }],
    invitations := [], syncStates := [], nextId := 0 }

/-- Keycloak-side state where the alias `taken-kc` is already registered. -/
def kcTaken : KcState :=
  { orgs := [{ id := "k1", name := "N", orgAlias := some "taken-kc",
               verifiedDomain := none }],
    members := [], nextId := 5 }

/-- The store produced by one reconciliation pass for `alice@acme.com`
against `envAcme`, starting from the empty store. -/
def syncOnceStore : Store :=
  match syncUserOrganizations envAcme 5 "u-alice" "alice@acme.com" emptyStore with
  | .ok p => p.1
  | .error _ => emptyStore

/-- A name of 51 canonical characters: 49 letters, a space, a letter.  Its
slug before truncation is 49 letters, a hyphen and a letter (51 characters),
so the 50-character truncation cuts exactly after the hyphen. -/
def hyphen51Name : String := String.mk (List.replicate 49 'a' ++ [' ', 'b'])

/-! ## Helper lemmas -/

theorem find?_append_some {α : Type} {p : α → Bool} {l t : List α} {a : α}
    (h : l.find? p = some a) : (l ++ t).find? p = some a := by
  rw [List.find?_append, h]; rfl

theorem find?_append_none {α : Type} {p : α → Bool} {l t : List α}
    (h : l.find? p = none) : (l ++ t).find? p = t.find? p := by
  rw [List.find?_append, h]; rfl

theorem find?_map_eq {α : Type} (f : α → α) (p : α → Bool) (l : List α)
    (hf : ∀ a, p (f a) = p a) : (l.map f).find? p = (l.find? p).map f := by
  induction l with
  | nil => rfl
  | cons a t ih =>
    simp only [List.map_cons, List.find?_cons, hf a]
    cases p a <;> simp [ih]

theorem except_bind_ok {ε α β : Type} (a : α) (f : α → Except ε β) :
    (Except.ok a >>= f) = f a := rfl

theorem except_bind_error {ε α β : Type} (e : ε) (f : α → Except ε β) :
    ((Except.error e : Except ε α) >>= f) = .error e := rfl

theorem except_bind_eq_ok {ε α β : Type} {x : Except ε α} {f : α → Except ε β}
    {c : β} (h : (x >>= f) = .ok c) : ∃ a, x = .ok a ∧ f a = .ok c := by
  cases x with
  | ok a => exact ⟨a, rfl, h⟩
  | error e => rw [except_bind_error] at h; cases h

/-- A monadic fold over `Except` that reaches an erroring element returns
that error: the elements after it are never processed. -/
theorem foldlM_append_error {α β ε : Type} {f : β → α → Except ε β}
    {l1 : List α} (l2 : List α) (k : α) {b b1 : β} {e : ε}
    (h1 : l1.foldlM f b = .ok b1) (hk : f b1 k = .error e) :
    (l1 ++ k :: l2).foldlM f b = .error e := by
  induction l1 generalizing b with
  | nil =>
    have hb : b = b1 := by injection (show Except.ok b = Except.ok b1 from h1)
    subst hb
    rw [List.nil_append, List.foldlM_cons, hk, except_bind_error]
  | cons a t ih =>
    rw [List.cons_append, List.foldlM_cons]
    rw [List.foldlM_cons] at h1
    obtain ⟨b2, hb2, hrest⟩ := except_bind_eq_ok h1
    rw [hb2, except_bind_ok]
    exact ih hrest

/-! ## C9 — reconciliation with no matching Identity Directory user -/

/-- **C9**: when the reconciliation pass is invoked for an email with no
matching user in the Identity Directory, `ReconcileUser` returns the zero
result without raising and without writing to the Local Store (the returned
store is the input store). -/
theorem reconcile_missing_user_returns_zero (env : KcEnv) (now : Time)
    (userId userEmail : String) (s : Store)
    (h : env.userByEmail userEmail = none) :
    syncUserOrganizations env now userId userEmail s = .ok (s, SyncResult.zero) := by
  unfold syncUserOrganizations
  rw [h]

theorem reconcile_missing_user_returns_zero_witness :
    envAcme.userByEmail "nobody@x.com" = none ∧
    syncUserOrganizations envAcme 0 "u9" "nobody@x.com" emptyStore
      = .ok (emptyStore, SyncResult.zero) :=
  ⟨by decide,
   reconcile_missing_user_returns_zero envAcme 0 "u9" "nobody@x.com" emptyStore
     (by decide)⟩

/-! ## C1 — a per-organization error aborts the pass and is rethrown -/

/-- **C1 (counterexample)**: the claim says a failure while processing one
organization is aggregated into the returned result instead of being thrown.
At this concrete input the first organization's mirror insert violates the
unique slug constraint, and the whole pass returns that error — so the second
organization is never processed and no result record is returned. -/
theorem sync_error_is_thrown_cex :
    syncUserOrganizations envTwoOrgs 0 "u-alice" "alice@acme.com" storeSlugConflict
      = .error (.uniqueViolation "organization_slug_unique") := by decide

/-- **C1 (amended)**: an error raised while processing one organization of
the membership list aborts the remaining organizations and is rethrown to
the caller (the `catch` block logs it and rethrows): if processing some
organization `k` fails after a prefix succeeded, the whole reconciliation
pass returns that error. -/
theorem sync_per_org_error_aborts_and_rethrows
    (env : KcEnv) (now : Time) (userId userEmail : String) (s : Store)
    (kcUser : KcUser) (pre post : List KcOrg) (k : KcOrg)
    (s1 : Store) (r1 : SyncResult) (e : DbError)
    (hu : env.userByEmail userEmail = some kcUser)
    (hl : env.orgsForUser userEmail = pre ++ k :: post)
    (hpre : pre.foldlM (syncProcessOrg now kcUser.id userId userEmail)
      (s, SyncResult.zero) = .ok (s1, r1))
    (hk : syncProcessOrg now kcUser.id userId userEmail (s1, r1) k = .error e) :
    syncUserOrganizations env now userId userEmail s = .error e := by
  unfold syncUserOrganizations
  rw [hu, hl]
  exact foldlM_append_error post k hpre hk

theorem sync_per_org_error_aborts_and_rethrows_witness :
    syncUserOrganizations envTwoOrgs 5 "u-alice" "alice@acme.com" storeSlugConflict
      = .error (.uniqueViolation "organization_slug_unique") :=
  sync_per_org_error_aborts_and_rethrows envTwoOrgs 5 "u-alice" "alice@acme.com"
    storeSlugConflict ⟨"kc-alice"⟩ [] [kcOrgBeta] kcOrgAcme storeSlugConflict
    SyncResult.zero (.uniqueViolation "organization_slug_unique")
    (by decide) (by decide) (by decide) (by decide)

/-! ## C2 — InviteMember rejects every permitted principal as AlreadyMember -/

/-- **C2 (code behaviour at the claim's preconditions)**: whenever the
claim's preconditions hold — authenticated principal who is an owner or
admin member of an existing organization, both required fields present,
syntactically valid email, valid role — the invite route answers
`AlreadyMember` and writes nothing, regardless of whether the invitee is a
member: its step 5 re-queries the `member` table with the principal's own
user id, which step 4 just found.  The route's own test expects 200/success
for exactly such an input, so this is a code bug, not intended behaviour. -/
theorem invite_permitted_principal_gets_already_member
    (user : SessionUser) (body : InviteBody) (kcInviteOk : Bool) (now : Time)
    (s : Store) (orgData : Organization) (membership : Member)
    (hoid : body.organizationId.getD "" ≠ "")
    (hem : body.email.getD "" ≠ "")
    (hemail : emailValid (body.email.getD "") = true)
    (hrole : validRoles.contains (body.role.getD "member") = true)
    (horg : findOrgById s (body.organizationId.getD "") = some orgData)
    (hmem : findMember s (body.organizationId.getD "") user.id = some membership)
    (hperm : membership.role = "owner" ∨ membership.role = "admin") :
    invitePost (some user) body kcInviteOk now s = (.alreadyMember, s) := by
  unfold invitePost
  have h1 : (body.organizationId.getD "" == "") = false := by
    simpa using hoid
  have h2 : (body.email.getD "" == "") = false := by
    simpa using hem
  have h3 : (membership.role != "owner" && membership.role != "admin") = false := by
    rcases hperm with h | h <;> simp [h]
  simp only [h1, h2, Bool.or_self, Bool.or_false, Bool.false_or, if_neg,
    Bool.false_eq_true, not_false_eq_true, hemail, Bool.not_true, hrole,
    horg, hmem, h3, Bool.not_false, if_false, if_true]

theorem invite_permitted_principal_gets_already_member_witness :
    invitePost (some ⟨"u1", "owner@example.com"⟩)
      ⟨some "org1", some "bob@external.com", some "member", some "Bob", some "Smith"⟩
      true 0 storeOwner = (.alreadyMember, storeOwner) :=
  invite_permitted_principal_gets_already_member
    ⟨"u1", "owner@example.com"⟩
    ⟨some "org1", some "bob@external.com", some "member", some "Bob", some "Smith"⟩
    true 0 storeOwner orgTestRow ⟨"m1", "org1", "u1", "owner"⟩
    (by decide) (by decide) (by decide) (by decide) (by decide) (by decide)
    (Or.inl rfl)

/-! ## C7 — VerifyDomain is idempotent once verified -/

/-- **C7**: a `VerifyDomain` call by the owner of an organization that has a
custom domain whose `domainVerified` flag is already `true` returns success
with `verified == true`, performs no DNS TXT lookup (the DNS query trace is
empty, so the resolver is never consulted), and leaves the Local Store and
Keycloak state unchanged. -/
theorem verify_domain_short_circuits_when_already_verified
    (user : SessionUser) (organizationId : String) (resolve : DnsResolver)
    (kcUpdateOk : Bool) (kc : KcState) (now : Time) (s : Store)
    (org : Organization) (m : Member) (d : String)
    (horg : findOrgById s organizationId = some org)
    (hm : findMember s organizationId user.id = some m)
    (hrole : m.role = "owner")
    (hd : org.customDomain = some d)
    (hv : org.domainVerified = true) :
    verifyPost (some user) organizationId resolve kcUpdateOk kc now s
      = (.alreadyVerified d, s, kc, []) := by
  unfold verifyPost
  simp [horg, hm, hrole, hd, hv]

theorem verify_domain_short_circuits_when_already_verified_witness :
    verifyPost (some ⟨"u1", "owner@example.com"⟩) "oV" (fun _ => .errNotFound)
      true ⟨[], [], 0⟩ 9 storeVerified
      = (.alreadyVerified "v.example", storeVerified, ⟨[], [], 0⟩, []) :=
  verify_domain_short_circuits_when_already_verified
    ⟨"u1", "owner@example.com"⟩ "oV" (fun _ => .errNotFound) true ⟨[], [], 0⟩ 9
    storeVerified orgVerifiedRow ⟨"mV", "oV", "u1", "owner"⟩ "v.example"
    (by decide) (by decide) rfl rfl rfl

/-! ## C8 — CancelInvitation succeeds only from pending and is terminal -/

/-- **C8**: an owner/admin cancel on a pending invitation sets its status to
`cancelled`; a second `CancelInvitation` on the same id then answers
`NotPending` and leaves the store untouched. -/
theorem cancel_invitation_is_terminal
    (user : SessionUser) (invId : String) (now now2 : Time) (s s1 : Store)
    (inv : Invitation) (m : Member)
    (hinv : findInvitationById s invId = some inv)
    (hm : findMember s inv.organizationId user.id = some m)
    (hrole : m.role = "owner" ∨ m.role = "admin")
    (hpending : inv.status = "pending")
    (h1 : cancelPost (some user) invId now s = (.success, s1)) :
    findInvitationById s1 invId
      = some { inv with status := "cancelled", updatedAt := now } ∧
    cancelPost (some user) invId now2 s1 = (.notPending "cancelled", s1) := by
  have hrb : (m.role != "owner" && m.role != "admin") = false := by
    rcases hrole with h | h <;> simp [h]
  have hpb : (inv.status != "pending") = false := by simp [hpending]
  have hs1 : s1 = { s with invitations := s.invitations.map fun i =>
      if i.id == invId then { i with status := "cancelled", updatedAt := now }
      else i } := by
    have h2 := h1
    unfold cancelPost at h2
    simp only [hinv, hm, hrb, hpb, Bool.false_eq_true, if_false,
      Prod.mk.injEq] at h2
    exact h2.2.symm
  subst hs1
  have hp : ∀ i : Invitation,
      ((if i.id == invId then
          { i with status := "cancelled", updatedAt := now } else i).id == invId)
        = (i.id == invId) := by
    intro i
    by_cases h : (i.id == invId) = true
    · simp [h]
    · simp [h]
  have hinv2 : s.invitations.find? (fun i => i.id == invId) = some inv := hinv
  have hid : (inv.id == invId) = true :=
    @List.find?_some _ (fun i => i.id == invId) inv s.invitations hinv2
  have hfind : findInvitationById
      { s with invitations := s.invitations.map fun i =>
          if i.id == invId then { i with status := "cancelled", updatedAt := now }
          else i } invId
      = some { inv with status := "cancelled", updatedAt := now } := by
    show (s.invitations.map fun i =>
        if i.id == invId then { i with status := "cancelled", updatedAt := now }
        else i).find? (fun i => i.id == invId) = _
    rw [find?_map_eq _ _ _ hp, hinv2]
    have hideq : inv.id = invId := by simpa using hid
    simp [hideq]
  refine ⟨hfind, ?_⟩
  unfold cancelPost
  have hmem1 : findMember
      { s with invitations := s.invitations.map fun i =>
          if i.id == invId then { i with status := "cancelled", updatedAt := now }
          else i } inv.organizationId user.id = some m := hm
  simp only [hfind, hmem1, hrb, Bool.false_eq_true, if_false]
  simp

/-- Store after the first cancel of `inv8` in the fixture. -/
theorem cancel_invitation_is_terminal_witness :
    findInvitationById
      (cancelPost (some ⟨"u1", "owner@example.com"⟩) "inv8" 3 storeCancel).2 "inv8"
      = some { invPendingRow with status := "cancelled", updatedAt := 3 } ∧
    cancelPost (some ⟨"u1", "owner@example.com"⟩) "inv8" 4
      (cancelPost (some ⟨"u1", "owner@example.com"⟩) "inv8" 3 storeCancel).2
      = (.notPending "cancelled",
         (cancelPost (some ⟨"u1", "owner@example.com"⟩) "inv8" 3 storeCancel).2) :=
  cancel_invitation_is_terminal ⟨"u1", "owner@example.com"⟩ "inv8" 3 4 storeCancel
    (cancelPost (some ⟨"u1", "owner@example.com"⟩) "inv8" 3 storeCancel).2
    invPendingRow ⟨"m1", "org1", "u1", "owner"⟩
    (by decide) (by decide) (Or.inl rfl) rfl (by decide)

/-! ## C5 — ProvisionOrganization pre-check failures are side-effect-free -/

/-- **C5**: with an authenticated principal and both required fields present,
a failure at step 1 (slug format/reserved validation), step 2 (slug already
in the Local Store) or step 3 (alias already in the Identity Directory)
returns the corresponding typed error and leaves both the Local Store and
the Keycloak state exactly as they were; the checks apply in that strict
order (each case places no condition on the later checks, so an earlier
failure wins even if later checks would also fail). -/
theorem create_precheck_failures_are_side_effect_free
    (user : SessionUser) (name slug : Option String) (env : KcEnv)
    (kc : KcState) (now : Time) (s : Store)
    (hname : name.getD "" ≠ "") (hslug : slug.getD "" ≠ "") :
    ((validateSlug (slug.getD "")).valid = false →
      createPost (some user) name slug env kc now s
        = (.invalidSlug (validateSlug (slug.getD "")).error, s, kc)) ∧
    ((validateSlug (slug.getD "")).valid = true →
      (findOrgBySlug s (slug.getD "")).isSome = true →
      createPost (some user) name slug env kc now s = (.slugTakenLocal, s, kc)) ∧
    ((validateSlug (slug.getD "")).valid = true →
      (findOrgBySlug s (slug.getD "")).isSome = false →
      (searchOrganizationsByAlias kc (slug.getD "")).isEmpty = false →
      createPost (some user) name slug env kc now s = (.slugTakenKeycloak, s, kc)) := by
  have h1 : (name.getD "" == "") = false := by simpa using hname
  have h2 : (slug.getD "" == "") = false := by simpa using hslug
  refine ⟨?_, ?_, ?_⟩
  · intro hval
    unfold createPost
    simp [h1, h2, hval]
  · intro hval hdb
    unfold createPost
    simp [h1, h2, hval, hdb]
  · intro hval hdb hkc
    unfold createPost
    simp [h1, h2, hval, hdb, hkc]

theorem create_precheck_failures_are_side_effect_free_witness :
    (((validateSlug "ab").valid = false →
      createPost (some ⟨"u1", "owner@example.com"⟩) (some "Acme") (some "ab")
        envAcme kcTaken 0 storeOwner
        = (.invalidSlug (validateSlug "ab").error, storeOwner, kcTaken)) ∧
     ((validateSlug "ab").valid = true →
      (findOrgBySlug storeOwner "ab").isSome = true →
      createPost (some ⟨"u1", "owner@example.com"⟩) (some "Acme") (some "ab")
        envAcme kcTaken 0 storeOwner = (.slugTakenLocal, storeOwner, kcTaken)) ∧
     ((validateSlug "ab").valid = true →
      (findOrgBySlug storeOwner "ab").isSome = false →
      (searchOrganizationsByAlias kcTaken "ab").isEmpty = false →
      createPost (some ⟨"u1", "owner@example.com"⟩) (some "Acme") (some "ab")
        envAcme kcTaken 0 storeOwner = (.slugTakenKeycloak, storeOwner, kcTaken))) ∧
    (validateSlug "ab").valid = false :=
  ⟨create_precheck_failures_are_side_effect_free ⟨"u1", "owner@example.com"⟩
     (some "Acme") (some "ab") envAcme kcTaken 0 storeOwner
     (by decide) (by decide),
   by decide⟩

/-! ## C10 — omitted role defaults to member -/

/-- Dispatches every branch of the invite route that returns an error
result and leaves the store unchanged. -/
theorem invite_result_props_of_error (res : InviteResult) (s : Store)
    (hne : res ≠ .invalidRole)
    (hsucc : ∀ iid em rl ex, res = .success iid em rl ex → rl = "member") :
    (res, s).1 ≠ .invalidRole ∧
    (∀ iid em rl ex, (res, s).1 = .success iid em rl ex → rl = "member") ∧
    (∀ inv ∈ (res, s).2.invitations, inv ∉ s.invitations → inv.role = some "member") :=
  ⟨hne, hsucc, fun _ hin hnin => absurd hin hnin⟩

/-- **C10**: when the `role` field is omitted from the request body, the
invite route never answers `InvalidRole`; the role defaults to `member`, so
a success response reports role `member` and any invitation row the call
adds to the store carries role `member`. -/
theorem invite_role_defaults_to_member
    (session : Option SessionUser) (body : InviteBody) (kcInviteOk : Bool)
    (now : Time) (s : Store) (hrole : body.role = none) :
    (invitePost session body kcInviteOk now s).1 ≠ .invalidRole ∧
    (∀ iid em rl ex,
      (invitePost session body kcInviteOk now s).1 = .success iid em rl ex →
      rl = "member") ∧
    (∀ inv ∈ ((invitePost session body kcInviteOk now s).2).invitations,
      inv ∉ s.invitations → inv.role = some "member") := by
  unfold invitePost
  rw [hrole]
  cases session with
  | none =>
    exact invite_result_props_of_error .unauthorized s (by decide)
      (fun _ _ _ _ h => InviteResult.noConfusion h)
  | some user =>
    dsimp only
    have hmem : (!validRoles.contains (Option.getD none "member")) = false := by decide
    rw [hmem]
    simp only [Bool.false_eq_true, if_false]
    split
    · exact invite_result_props_of_error .missingFields s (by decide)
        (fun _ _ _ _ h => InviteResult.noConfusion h)
    · split
      · exact invite_result_props_of_error .invalidEmail s (by decide)
          (fun _ _ _ _ h => InviteResult.noConfusion h)
      · split
        · exact invite_result_props_of_error .orgNotFound s (by decide)
            (fun _ _ _ _ h => InviteResult.noConfusion h)
        · split
          · exact invite_result_props_of_error .notMember s (by decide)
              (fun _ _ _ _ h => InviteResult.noConfusion h)
          · split
            · exact invite_result_props_of_error .insufficientRole s (by decide)
                (fun _ _ _ _ h => InviteResult.noConfusion h)
            · split
              · exact invite_result_props_of_error .alreadyMember s (by decide)
                  (fun _ _ _ _ h => InviteResult.noConfusion h)
              · split
                · exact invite_result_props_of_error .alreadyInvited s (by decide)
                    (fun _ _ _ _ h => InviteResult.noConfusion h)
                · split
                  · exact invite_result_props_of_error .orgNotLinked s (by decide)
                      (fun _ _ _ _ h => InviteResult.noConfusion h)
                  · split
                    · exact invite_result_props_of_error .externalFailure s (by decide)
                        (fun _ _ _ _ h => InviteResult.noConfusion h)
                    · refine ⟨by simp, ?_, ?_⟩
                      · intro iid em rl ex h
                        cases h
                        rfl
                      · intro inv hin hnin
                        simp only [List.mem_append, List.mem_singleton] at hin
                        rcases hin with h | h
                        · exact absurd h hnin
                        · rw [h]
                          rfl

theorem invite_role_defaults_to_member_witness :
    ((invitePost (some ⟨"u1", "owner@example.com"⟩)
        ⟨some "org1", some "bob@external.com", none, none, none⟩
        true 0 storeOwner).1 ≠ .invalidRole ∧
     (∀ iid em rl ex,
       (invitePost (some ⟨"u1", "owner@example.com"⟩)
         ⟨some "org1", some "bob@external.com", none, none, none⟩
         true 0 storeOwner).1 = .success iid em rl ex → rl = "member") ∧
     (∀ inv ∈ ((invitePost (some ⟨"u1", "owner@example.com"⟩)
         ⟨some "org1", some "bob@external.com", none, none, none⟩
         true 0 storeOwner).2).invitations,
       inv ∉ storeOwner.invitations → inv.role = some "member")) :=
  invite_role_defaults_to_member (some ⟨"u1", "owner@example.com"⟩)
    ⟨some "org1", some "bob@external.com", none, none, none⟩ true 0 storeOwner rfl

/-! ## C6 — slug generation and idempotence

`generateSlug` truncates to 50 characters *after* stripping edge hyphens, so
when the cut lands right after a hyphen the output ends in `-` and a second
application strips that hyphen: `generate` is idempotent exactly up to one
trailing hyphen. -/

theorem char_bounds_of_slugchar {c : Char}
    (h : isLowerAlnum c = true ∨ c = '-') :
    (97 ≤ c.toNat ∧ c.toNat ≤ 122) ∨ (48 ≤ c.toNat ∧ c.toNat ≤ 57) ∨
      c.toNat = 45 := by
  rcases h with h | h
  · unfold isLowerAlnum at h
    simp only [Bool.or_eq_true, Bool.and_eq_true, decide_eq_true_iff] at h
    tauto
  · subst h; right; right; rfl

theorem jsToLower_fixes {c : Char} (h : isLowerAlnum c = true ∨ c = '-') :
    jsToLower c = c := by
  have hb := char_bounds_of_slugchar h
  unfold jsToLower
  split
  · rename_i hlt
    simp only [Bool.and_eq_true, decide_eq_true_iff] at hlt
    omega
  · rfl

theorem not_space_of_slugchar {c : Char} (h : isLowerAlnum c = true ∨ c = '-') :
    isJsSpace c = false := by
  have hb := char_bounds_of_slugchar h
  unfold isJsSpace
  simp only [Bool.or_eq_false_iff, Bool.and_eq_false_iff,
    decide_eq_false_iff_not]
  omega

theorem toHyphens_fixes {c : Char} (h : isLowerAlnum c = true ∨ c = '-') :
    (if isLowerAlnum c then c else '-') = c := by
  rcases h with h | h
  · rw [if_pos h]
  · subst h
    split <;> rfl

theorem mem_toHyphens {cs : List Char} {c : Char} (h : c ∈ toHyphens cs) :
    isLowerAlnum c = true ∨ c = '-' := by
  unfold toHyphens at h
  rcases List.mem_map.1 h with ⟨a, _, rfl⟩
  by_cases ha : isLowerAlnum a = true
  · rw [if_pos ha]; exact Or.inl ha
  · rw [if_neg ha]; exact Or.inr rfl

theorem mem_collapseHyphens {cs : List Char} {c : Char}
    (h : c ∈ collapseHyphens cs) : c ∈ cs := by
  induction cs using collapseHyphens.induct with
  | case1 => simp [collapseHyphens] at h
  | case2 x => simpa [collapseHyphens] using h
  | case3 a b rest hcond ih =>
    rw [collapseHyphens, if_pos hcond] at h
    exact List.mem_cons_of_mem a (ih h)
  | case4 a b rest hcond ih =>
    rw [collapseHyphens, if_neg hcond] at h
    rcases List.mem_cons.1 h with h | h
    · exact h ▸ List.mem_cons_self a _
    · exact List.mem_cons_of_mem a (ih h)

theorem head?_collapseHyphens (a : Char) (l : List Char) :
    (collapseHyphens (a :: l)).head? = some a := by
  induction l generalizing a with
  | nil => rfl
  | cons b rest ih =>
    rw [collapseHyphens]
    split
    · rename_i hcond
      rw [ih b]
      have hab : a = '-' ∧ b = '-' := by simpa using hcond
      rw [hab.1, hab.2]
    · rfl

theorem noDoubleHyphen_cons_cons (a b : Char) (l : List Char) :
    noDoubleHyphen (a :: b :: l)
      = (!(a = '-' && b = '-') && noDoubleHyphen (b :: l)) := rfl

theorem noDouble_collapseHyphens (l : List Char) :
    noDoubleHyphen (collapseHyphens l) = true := by
  induction l with
  | nil => rfl
  | cons a t ih =>
    cases t with
    | nil => rfl
    | cons b rest =>
      rw [collapseHyphens]
      split
      · exact ih
      · rename_i hcond
        have hh := head?_collapseHyphens b rest
        cases hcol : collapseHyphens (b :: rest) with
        | nil => rfl
        | cons c tail =>
          have hcb : c = b := by
            rw [hcol] at hh; simpa using hh
          rw [noDoubleHyphen_cons_cons]
          have h2 : noDoubleHyphen (c :: tail) = true := by
            rw [← hcol]; exact ih
          have hfalse : (a = '-' && b = '-') = false := by
            rcases Bool.eq_false_or_eq_true (a = '-' && b = '-') with h | h
            · exact absurd h hcond
            · exact h
          rw [h2, hcb, hfalse]
          rfl

theorem collapse_of_noDouble {l : List Char} (h : noDoubleHyphen l = true) :
    collapseHyphens l = l := by
  induction l with
  | nil => rfl
  | cons a t ih =>
    cases t with
    | nil => rfl
    | cons b rest =>
      rw [noDoubleHyphen_cons_cons, Bool.and_eq_true] at h
      have hx : (a = '-' && b = '-') = false := by
        have hnot := h.1
        cases hx2 : (a = '-' && b = '-') with
        | false => rfl
        | true => rw [hx2] at hnot; exact absurd hnot (by decide)
      rw [collapseHyphens, if_neg (by simp [hx])]
      rw [ih h.2]

theorem noDouble_take (l : List Char) (h : noDoubleHyphen l = true) (n : Nat) :
    noDoubleHyphen (l.take n) = true := by
  induction l generalizing n with
  | nil => rw [List.take_nil]; rfl
  | cons a t ih =>
    cases n with
    | zero => rfl
    | succ m =>
      rw [List.take_succ_cons]
      cases t with
      | nil => rw [List.take_nil]; rfl
      | cons b rest =>
        rw [noDoubleHyphen_cons_cons, Bool.and_eq_true] at h
        cases m with
        | zero => rfl
        | succ k =>
          rw [List.take_succ_cons, noDoubleHyphen_cons_cons, h.1]
          have h2 := ih h.2 (k + 1)
          rw [List.take_succ_cons] at h2
          rw [h2]
          rfl

theorem noDouble_tail {a : Char} {l : List Char}
    (h : noDoubleHyphen (a :: l) = true) : noDoubleHyphen l = true := by
  cases l with
  | nil => rfl
  | cons b rest =>
    rw [noDoubleHyphen_cons_cons, Bool.and_eq_true] at h
    exact h.2

theorem noDouble_dropTrailHyphen {l : List Char}
    (h : noDoubleHyphen l = true) : noDoubleHyphen (dropTrailHyphen l) = true := by
  unfold dropTrailHyphen
  split
  · rw [List.dropLast_eq_take]; exact noDouble_take l h _
  · exact h

theorem noDouble_dropLeadHyphen {l : List Char}
    (h : noDoubleHyphen l = true) : noDoubleHyphen (dropLeadHyphen l) = true := by
  unfold dropLeadHyphen
  split
  · cases l with
    | nil => rfl
    | cons a t => exact noDouble_tail h
  · exact h

theorem head?_dropLeadHyphen_ne {v : List Char} (hnd : noDoubleHyphen v = true) :
    (dropLeadHyphen v).head? ≠ some '-' := by
  unfold dropLeadHyphen
  split
  · rename_i hh
    cases v with
    | nil => simp at hh
    | cons a t =>
      rw [List.head?_cons, Option.some.injEq] at hh
      subst hh
      rw [List.tail_cons]
      cases t with
      | nil => simp
      | cons b rest =>
        rw [List.head?_cons]
        intro hc
        rw [Option.some.injEq] at hc
        subst hc
        rw [noDoubleHyphen_cons_cons] at hnd
        simp at hnd
  · rename_i hh
    exact hh

theorem head?_dropTrailHyphen_ne {v : List Char} (h : v.head? ≠ some '-') :
    (dropTrailHyphen v).head? ≠ some '-' := by
  unfold dropTrailHyphen
  split
  · cases v with
    | nil => simp
    | cons a t =>
      cases t with
      | nil => simp
      | cons b rest =>
        rw [List.dropLast_cons₂]
        simpa using h
  · exact h

theorem dropLeadHyphen_subset (l : List Char) : dropLeadHyphen l ⊆ l := by
  unfold dropLeadHyphen
  split
  · exact List.tail_subset l
  · exact fun _ h => h

theorem dropTrailHyphen_subset (l : List Char) : dropTrailHyphen l ⊆ l := by
  unfold dropTrailHyphen
  split
  · exact List.dropLast_subset l
  · exact fun _ h => h

theorem length_dropTrailHyphen_le (l : List Char) :
    (dropTrailHyphen l).length ≤ l.length := by
  unfold dropTrailHyphen
  split
  · rw [List.length_dropLast]; omega
  · exact Nat.le_refl _

theorem dropLeadHyphen_of_ne {l : List Char} (h : l.head? ≠ some '-') :
    dropLeadHyphen l = l := by
  unfold dropLeadHyphen
  rw [if_neg h]

theorem dropWhile_eq_self_of_all {p : Char → Bool} {l : List Char}
    (h : ∀ c ∈ l, p c = false) : l.dropWhile p = l := by
  cases l with
  | nil => rfl
  | cons a t =>
    rw [List.dropWhile_cons, h a (List.mem_cons_self a t)]
    rfl

theorem jsTrim_eq_self {l : List Char} (h : ∀ c ∈ l, isJsSpace c = false) :
    jsTrim l = l := by
  unfold jsTrim
  rw [dropWhile_eq_self_of_all h,
    dropWhile_eq_self_of_all (fun c hc => h c (List.mem_reverse.1 hc)),
    List.reverse_reverse]

theorem map_eq_self_of_mem {f : Char → Char} {l : List Char}
    (h : ∀ c ∈ l, f c = c) : l.map f = l := by
  rw [List.map_congr_left h]
  exact List.map_id _

/-- Structural facts about every `generateSlug` output: characters are
`[a-z0-9-]`, no doubled hyphen, no leading hyphen, at most 50 characters. -/
theorem generateSlug_data_facts (name : String) :
    (∀ c ∈ (generateSlug name).data, isLowerAlnum c = true ∨ c = '-') ∧
    noDoubleHyphen (generateSlug name).data = true ∧
    (generateSlug name).data.head? ≠ some '-' ∧
    (generateSlug name).data.length ≤ SLUG_MAX_LENGTH := by
  unfold generateSlug
  refine ⟨?_, ?_, ?_, ?_⟩
  · intro c hc
    exact mem_toHyphens (mem_collapseHyphens (dropLeadHyphen_subset _
      (dropTrailHyphen_subset _ (List.take_subset _ _ hc))))
  · exact noDouble_take _ (noDouble_dropTrailHyphen
      (noDouble_dropLeadHyphen (noDouble_collapseHyphens _))) _
  · have h1 := head?_dropLeadHyphen_ne (noDouble_collapseHyphens
      (toHyphens (jsTrim (name.data.map jsToLower))))
    have h2 := head?_dropTrailHyphen_ne h1
    have h50 : ¬(SLUG_MAX_LENGTH = 0) := by decide
    rw [List.head?_take, if_neg h50]
    exact h2
  · rw [List.length_take]
    exact Nat.min_le_left _ _

/-- **C6 (counterexample)**: `generateSlug` is not idempotent.  On a name of
49 letters, a space and a letter, the first application truncates right
after the hyphen, leaving a trailing hyphen; the second application strips
it, so `generate(generate(name)) ≠ generate(name)`. -/
theorem generateSlug_not_idempotent_cex :
    generateSlug (generateSlug hyphen51Name) ≠ generateSlug hyphen51Name := by
  decide

/-- **C6 (amended)**: applying `generateSlug` to its own output only strips
the single trailing hyphen that the 50-character truncation can leave
behind: `generate(generate(name))` equals `generate(name)` with one trailing
hyphen removed.  In particular `generate` is idempotent at every name whose
slug does not end in a hyphen — outputs are otherwise already canonical. -/
theorem generateSlug_idempotent_up_to_trailing_hyphen (name : String) :
    generateSlug (generateSlug name)
      = String.mk (dropTrailHyphen (generateSlug name).data) := by
  obtain ⟨hmem, hnd, hhead, hlen⟩ := generateSlug_data_facts name
  conv_lhs => rw [generateSlug]
  rw [map_eq_self_of_mem (fun c hc => jsToLower_fixes (hmem c hc))]
  rw [jsTrim_eq_self (fun c hc => not_space_of_slugchar (hmem c hc))]
  rw [show toHyphens (generateSlug name).data = (generateSlug name).data from
    map_eq_self_of_mem (fun c hc => toHyphens_fixes (hmem c hc))]
  rw [collapse_of_noDouble hnd]
  rw [dropLeadHyphen_of_ne hhead]
  rw [List.take_of_length_le
    (Nat.le_trans (length_dropTrailHyphen_le _) hlen)]

/-! ## C3 / C4 — reconciliation idempotence and invitation acceptance -/

theorem insertOrganization_ok {s : Store} {o : Organization} {s3 : Store}
    (h : insertOrganization s o = .ok s3) :
    s3 = { s with orgs := s.orgs ++ [o] } := by
  unfold insertOrganization at h
  split at h
  · cases h
  · split at h
    · cases h
    · exact (Except.ok.inj h).symm

/-- `syncOrgSlug` only advances the id counter. -/
theorem syncOrgSlug_fields (k : KcOrg) (s1 : Store) :
    (syncOrgSlug k s1).2.orgs = s1.orgs ∧
    (syncOrgSlug k s1).2.members = s1.members ∧
    (syncOrgSlug k s1).2.invitations = s1.invitations := by
  unfold syncOrgSlug
  split
  · split
    · exact ⟨rfl, rfl, rfl⟩
    · exact ⟨rfl, rfl, rfl⟩
  · exact ⟨rfl, rfl, rfl⟩

/-- `syncEnsureMembership` never touches the organization rows. -/
theorem syncEnsureMembership_orgs (now : Time) (kcUid uid email orgId : String)
    (s : Store) (r : SyncResult) :
    (syncEnsureMembership now kcUid uid email orgId s r).1.orgs = s.orgs := by
  unfold syncEnsureMembership
  split
  · rfl
  · dsimp only
    split
    · rfl
    · rfl

/-- `syncEnsureMembership` only appends membership rows. -/
theorem syncEnsureMembership_members (now : Time) (kcUid uid email orgId : String)
    (s : Store) (r : SyncResult) :
    ∃ t, (syncEnsureMembership now kcUid uid email orgId s r).1.members
      = s.members ++ t := by
  unfold syncEnsureMembership
  split
  · exact ⟨[], (List.append_nil _).symm⟩
  · dsimp only
    split
    · exact ⟨_, rfl⟩
    · exact ⟨_, rfl⟩

/-- After `syncEnsureMembership`, the user has a membership row in the
organization. -/
theorem syncEnsureMembership_member_present (now : Time)
    (kcUid uid email orgId : String) (s : Store) (r : SyncResult) :
    (findMember (syncEnsureMembership now kcUid uid email orgId s r).1
      orgId uid).isSome = true := by
  unfold syncEnsureMembership
  split
  · rename_i m hm
    rw [hm]
    rfl
  · rename_i hm
    have hnone : s.members.find?
        (fun m => m.organizationId == orgId && m.userId == uid) = none := hm
    dsimp only
    split
    · show (findMember _ orgId uid).isSome = true
      unfold findMember
      rw [find?_append_none hnone]
      simp
    · show (findMember _ orgId uid).isSome = true
      unfold findMember
      rw [find?_append_none hnone]
      simp

/-- Variant of `syncEnsureMembership_members` phrased against any store with
the same membership rows. -/
theorem syncEnsureMembership_members_prefix (now : Time)
    (kcUid uid email orgId : String) {s4 s : Store} (r : SyncResult)
    (hm : s4.members = s.members) :
    s.members <+: (syncEnsureMembership now kcUid uid email orgId s4 r).1.members := by
  obtain ⟨t, ht⟩ := syncEnsureMembership_members now kcUid uid email orgId s4 r
  rw [ht, hm]
  exact List.prefix_append _ _

/-- An `ok` step of the per-organization loop only appends organization and
membership rows: the input tables are prefixes of the output tables. -/
theorem syncProcessOrg_ok_extends {now : Time} {kcUid uid email : String}
    {s : Store} {r : SyncResult} {k : KcOrg} {s2 : Store} {r2 : SyncResult}
    (h : syncProcessOrg now kcUid uid email (s, r) k = .ok (s2, r2)) :
    s.orgs <+: s2.orgs ∧ s.members <+: s2.members := by
  simp only [syncProcessOrg] at h
  split at h
  · have hp := Except.ok.inj h
    have hs : s = s2 := congrArg Prod.fst hp
    subst hs
    exact ⟨List.prefix_refl _, List.prefix_refl _⟩
  · split at h
    · rename_i org horg
      have hp := Except.ok.inj h
      have hs : _ = s2 := congrArg Prod.fst hp
      rw [← hs]
      constructor
      · rw [syncEnsureMembership_orgs]
      · exact syncEnsureMembership_members_prefix now kcUid uid email _ _ rfl
    · rename_i horg
      split at h
      · cases h
      · rename_i s3 hins
        have hp := Except.ok.inj h
        have hs : _ = s2 := congrArg Prod.fst hp
        rw [← hs]
        have hs3 := insertOrganization_ok hins
        constructor
        · rw [syncEnsureMembership_orgs]
          dsimp only
          rw [hs3]
          dsimp only
          rw [(syncOrgSlug_fields k _).1]
          exact List.prefix_append _ _
        · refine syncEnsureMembership_members_prefix now kcUid uid email _ _ ?_
          dsimp only
          rw [hs3]
          dsimp only
          rw [(syncOrgSlug_fields k _).2.1]

/-- `orgSynced` is stable under appending rows. -/
theorem orgSynced_mono {s s2 : Store} {uid : String} {k : KcOrg}
    (horgs : s.orgs <+: s2.orgs) (hmems : s.members <+: s2.members)
    (h : orgSynced s uid k) : orgSynced s2 uid k := by
  rcases h with h | ⟨org, hfind, hm⟩
  · exact Or.inl h
  · right
    refine ⟨org, ?_, ?_⟩
    · obtain ⟨t, ht⟩ := horgs
      unfold findOrgByKcId at hfind ⊢
      rw [← ht]
      exact find?_append_some hfind
    · obtain ⟨t, ht⟩ := hmems
      unfold findMember at hm ⊢
      rw [← ht]
      cases hf : s.members.find?
          (fun m => m.organizationId == org.id && m.userId == uid) with
      | none => rw [hf] at hm; cases hm
      | some m => rw [find?_append_some hf]; rfl

/-- A successfully processed Keycloak organization entry is mirrored in the
resulting store. -/
theorem syncProcessOrg_ok_synced {now : Time} {kcUid uid email : String}
    {s : Store} {r : SyncResult} {k : KcOrg} {s2 : Store} {r2 : SyncResult}
    (h : syncProcessOrg now kcUid uid email (s, r) k = .ok (s2, r2)) :
    orgSynced s2 uid k := by
  simp only [syncProcessOrg] at h
  split at h
  · rename_i hempty
    left
    simpa using hempty
  · rename_i hempty
    split at h
    · rename_i org horg
      have hp := Except.ok.inj h
      have hs : _ = s2 := congrArg Prod.fst hp
      right
      refine ⟨org, ?_, ?_⟩
      · rw [← hs]
        show findOrgByKcId _ (k.id.getD "") = some org
        unfold findOrgByKcId at horg ⊢
        rw [syncEnsureMembership_orgs]
        exact horg
      · rw [← hs]
        exact syncEnsureMembership_member_present now kcUid uid email org.id s r
    · rename_i horg
      split at h
      · cases h
      · rename_i s3 hins
        have hp := Except.ok.inj h
        have hs : _ = s2 := congrArg Prod.fst hp
        have hs3 := insertOrganization_ok hins
        right
        refine ⟨syncNewOrg now k s, ?_, ?_⟩
        · rw [← hs]
          show findOrgByKcId _ (k.id.getD "") = some _
          unfold findOrgByKcId at horg ⊢
          rw [syncEnsureMembership_orgs]
          dsimp only
          rw [hs3]
          dsimp only
          have horg2 : (syncOrgSlug k { s with nextId := s.nextId + 1 }).2.orgs.find?
              (fun o => o.keycloakOrgId == some (k.id.getD "")) = none := by
            rw [(syncOrgSlug_fields k _).1]
            exact horg
          rw [find?_append_none horg2]
          simp [syncNewOrg]
        · rw [← hs]
          exact syncEnsureMembership_member_present now kcUid uid email _ _ _

/-- If an organization entry is already mirrored, the per-organization loop
body does nothing: same store, same counters. -/
theorem syncProcessOrg_noop {now : Time} {kcUid uid email : String}
    {s : Store} {r : SyncResult} {k : KcOrg}
    (h : orgSynced s uid k) :
    syncProcessOrg now kcUid uid email (s, r) k = .ok (s, r) := by
  simp only [syncProcessOrg]
  rcases h with h | ⟨org, hfind, hm⟩
  · rw [if_pos (by simpa using h)]
  · split
    · rfl
    · simp only [hfind]
      unfold syncEnsureMembership
      cases hmem : findMember s org.id uid with
      | none => rw [hmem] at hm; cases hm
      | some m => rfl

/-- After an `ok` run of the reconciliation loop, the input tables are
prefixes of the output tables. -/
theorem syncFold_extends (now : Time) (kcUid uid email : String) :
    ∀ (l : List KcOrg) (s : Store) (r : SyncResult) (s2 : Store) (r2 : SyncResult),
      l.foldlM (syncProcessOrg now kcUid uid email) (s, r) = .ok (s2, r2) →
      s.orgs <+: s2.orgs ∧ s.members <+: s2.members := by
  intro l
  induction l with
  | nil =>
    intro s r s2 r2 h
    have hp : (s, r) = (s2, r2) :=
      Except.ok.inj (show Except.ok (s, r) = Except.ok (s2, r2) from h)
    have hs : s = s2 := congrArg Prod.fst hp
    subst hs
    exact ⟨List.prefix_refl _, List.prefix_refl _⟩
  | cons a t ih =>
    intro s r s2 r2 h
    rw [List.foldlM_cons] at h
    obtain ⟨⟨s1, r1⟩, h1, hrest⟩ := except_bind_eq_ok h
    obtain ⟨ho1, hm1⟩ := syncProcessOrg_ok_extends h1
    obtain ⟨ho2, hm2⟩ := ih s1 r1 s2 r2 hrest
    exact ⟨ho1.trans ho2, hm1.trans hm2⟩

/-- After an `ok` run of the reconciliation loop, every processed entry is
mirrored in the final store. -/
theorem syncFold_all_synced (now : Time) (kcUid uid email : String) :
    ∀ (l : List KcOrg) (s : Store) (r : SyncResult) (s2 : Store) (r2 : SyncResult),
      l.foldlM (syncProcessOrg now kcUid uid email) (s, r) = .ok (s2, r2) →
      ∀ k ∈ l, orgSynced s2 uid k := by
  intro l
  induction l with
  | nil => intro s r s2 r2 _ k hk; cases hk
  | cons a t ih =>
    intro s r s2 r2 h k hk
    rw [List.foldlM_cons] at h
    obtain ⟨⟨s1, r1⟩, h1, hrest⟩ := except_bind_eq_ok h
    rcases List.mem_cons.1 hk with hka | hkt
    · subst hka
      obtain ⟨ho, hm⟩ := syncFold_extends now kcUid uid email t s1 r1 s2 r2 hrest
      exact orgSynced_mono ho hm (syncProcessOrg_ok_synced h1)
    · exact ih s1 r1 s2 r2 hrest k hkt

/-- A reconciliation loop over fully mirrored entries is the identity. -/
theorem syncFold_noop (now : Time) (kcUid uid email : String) :
    ∀ (l : List KcOrg) (s : Store) (r : SyncResult),
      (∀ k ∈ l, orgSynced s uid k) →
      l.foldlM (syncProcessOrg now kcUid uid email) (s, r) = .ok (s, r) := by
  intro l
  induction l with
  | nil => intro s r _; rfl
  | cons a t ih =>
    intro s r h
    rw [List.foldlM_cons, syncProcessOrg_noop (h a (List.mem_cons_self a t)),
      except_bind_ok]
    exact ih s r (fun k hk => h k (List.mem_cons_of_mem a hk))

/-- **C3**: `ReconcileUser` is idempotent: if a reconciliation pass completes
with result store `s1`, a second pass over the unchanged Identity Directory
returns `{newOrganizations := 0, newMemberships := 0, acceptedInvitations := 0}`
and performs no write — the store it returns is `s1` itself. -/
theorem reconcile_idempotent (env : KcEnv) (now now2 : Time)
    (userId userEmail : String) (s s1 : Store) (r1 : SyncResult)
    (h : syncUserOrganizations env now userId userEmail s = .ok (s1, r1)) :
    syncUserOrganizations env now2 userId userEmail s1
      = .ok (s1, SyncResult.zero) := by
  unfold syncUserOrganizations at h ⊢
  cases hu : env.userByEmail userEmail with
  | none => rfl
  | some kcUser =>
    rw [hu] at h
    have h2 : (env.orgsForUser userEmail).foldlM
        (syncProcessOrg now kcUser.id userId userEmail) (s, SyncResult.zero)
        = .ok (s1, r1) := h
    exact syncFold_noop now2 kcUser.id userId userEmail _ s1 SyncResult.zero
      (syncFold_all_synced now kcUser.id userId userEmail _ s SyncResult.zero
        s1 r1 h2)

theorem reconcile_idempotent_witness :
    syncUserOrganizations envAcme 9 "u-alice" "alice@acme.com" syncOnceStore
      = .ok (syncOnceStore, SyncResult.zero) :=
  reconcile_idempotent envAcme 5 9 "u-alice" "alice@acme.com" emptyStore
    syncOnceStore ⟨1, 1, 0⟩ (by decide)

/-- When no membership row exists and a matching pending invitation does,
`syncEnsureMembership` creates the membership, accepts that invitation
(status `accepted`, `acceptedAt = now`), and bumps both counters. -/
theorem syncEnsureMembership_accepts {s : Store} {inv : Invitation}
    (now : Time) (kcUid uid email orgId : String) (r : SyncResult)
    (hmem : findMember s orgId uid = none)
    (hinv : findPendingInvitation s orgId email = some inv) :
    (syncEnsureMembership now kcUid uid email orgId s r).2
        = { r with newMemberships := r.newMemberships + 1,
                   acceptedInvitations := r.acceptedInvitations + 1 } ∧
    (syncEnsureMembership now kcUid uid email orgId s r).1.invitations
        = s.invitations.map fun i =>
            if i.id == inv.id then
              { i with status := "accepted", acceptedAt := some now,
                       updatedAt := now }
            else i := by
  unfold syncEnsureMembership
  simp only [hmem]
  unfold findPendingInvitation at hinv ⊢
  dsimp only
  rw [hinv]
  exact ⟨rfl, rfl⟩

/-- **C4**: if the Identity Directory reports the user as a member of an
organization O that already has a local row but no local membership for the
user, and a pending invitation for the user's email exists in O, then the
reconciliation pass creates the membership, transitions that invitation to
`accepted` with `acceptedAt = now`, and reports
`{newOrganizations := 0, newMemberships := 1, acceptedInvitations := 1}`. -/
theorem reconcile_accepts_matching_pending_invitation
    (env : KcEnv) (now : Time) (userId userEmail : String) (s : Store)
    (kcUser : KcUser) (k : KcOrg) (kid : String) (org : Organization)
    (inv : Invitation)
    (hu : env.userByEmail userEmail = some kcUser)
    (hl : env.orgsForUser userEmail = [k])
    (hkid : k.id = some kid)
    (hne : kid ≠ "")
    (hfind : findOrgByKcId s kid = some org)
    (hmem : findMember s org.id userId = none)
    (hinv : findPendingInvitation s org.id userEmail = some inv) :
    ∃ s2, syncUserOrganizations env now userId userEmail s
        = .ok (s2, ⟨0, 1, 1⟩) ∧
      s2.invitations = s.invitations.map fun i =>
        if i.id == inv.id then
          { i with status := "accepted", acceptedAt := some now,
                   updatedAt := now }
        else i := by
  have hstep : syncProcessOrg now kcUser.id userId userEmail
      (s, SyncResult.zero) k
      = .ok (syncEnsureMembership now kcUser.id userId userEmail org.id s
          SyncResult.zero) := by
    simp only [syncProcessOrg, hkid, Option.getD_some]
    rw [if_neg (by simpa using hne)]
    simp only [hfind]
  obtain ⟨hr, hinvit⟩ := syncEnsureMembership_accepts now kcUser.id userId
    userEmail org.id SyncResult.zero hmem hinv
  refine ⟨(syncEnsureMembership now kcUser.id userId userEmail org.id s
    SyncResult.zero).1, ?_, hinvit⟩
  unfold syncUserOrganizations
  rw [hu, hl]
  show List.foldlM (syncProcessOrg now kcUser.id userId userEmail)
    (s, SyncResult.zero) [k] = _
  rw [List.foldlM_cons, hstep, except_bind_ok, List.foldlM_nil]
  have hr2 : (syncEnsureMembership now kcUser.id userId userEmail org.id s
      SyncResult.zero).2 = (⟨0, 1, 1⟩ : SyncResult) := hr
  show Except.ok _ = _
  rw [← hr2, Prod.mk.eta]

theorem reconcile_accepts_matching_pending_invitation_witness :
    ∃ s2, syncUserOrganizations envAcme 7 "u-alice" "alice@acme.com"
        storeInvitedAlice = .ok (s2, ⟨0, 1, 1⟩) ∧
      s2.invitations = storeInvitedAlice.invitations.map fun i =>
        if i.id == "inv1" then
          { i with status := "accepted", acceptedAt := some 7, updatedAt := 7 }
        else i :=
  reconcile_accepts_matching_pending_invitation envAcme 7 "u-alice"
    "alice@acme.com" storeInvitedAlice ⟨"kc-alice"⟩ kcOrgAcme "kc-1" orgAcmeRow
    { id := "inv1", organizationId := "oA", email := "alice@acme.com",
      role := some "member", status := "pending", expiresAt := 999,
      inviterId := "u0", keycloakInvitationId := none, acceptedAt := none,
      updatedAt := 0 }
    (by decide) (by decide) (by decide) (by decide) (by decide) (by decide)
    (by decide)

end Jithub
